import Mathlib

/-!
Verification of the MCP tool-dispatch server from
`llama_political_manager/mcp_server.py`.

The Python classes `MCPServer` and `PoliticalDocumentMCPServer` are shallowly
embedded: the server object becomes an explicit state record, methods become
state-passing functions, Python dicts become insertion-ordered association
lists (overwrite keeps the original position, like a Python `dict`), and
Python exceptions become explicit error values in an `Except` result.
Error provenance follows the source: the dispatch entry raises
`ValueError("Tool ... not found")` for a missing name (the `toolNotFound`
kind), a handler's own exception propagates to the caller (the `execError`
kind, carrying the original failure), and the secure entry raises
`PermissionError` (the `permissionDenied` kind).
-/

/-- Python-style runtime values passed to and returned from tool handlers.
Floats are represented as rationals (only mock payload literals use them). -/
inductive Value where
  | str : String → Value
  | int : Int → Value
  | bool : Bool → Value
  | float : Rat → Value
  | vlist : List Value → Value
  | vdict : List (String × Value) → Value

/-- Python exceptions a handler body can raise in this code base. -/
inductive PyError where
  | valueError : String → PyError
  | runtimeError : String → PyError
deriving DecidableEq, Repr

/-- Failures observable by a caller of the dispatch entry points, classified
by provenance as in the source: the not-found `ValueError` raised by
`handle_tool_call` itself, an exception propagated out of a handler, and the
`PermissionError` raised by `handle_secure_tool_call`. -/
inductive CallError where
  | toolNotFound : String → CallError
  | execError : PyError → CallError
  | permissionDenied : String → CallError
deriving DecidableEq, Repr

/-- Keyword-argument mapping handed to a handler (`**arguments`). -/
abbrev Args := List (String × Value)

/-- A registered handler: the `asyncio.iscoroutinefunction` classification
together with the callable itself, which returns a value or raises. -/
structure Handler where
  isAsync : Bool
  run : Args → Except PyError Value

/-- The per-tool record stored in the registry:
`\x7b"name": name, "description": description, "handler": handler\x7d`. -/
structure Tool where
  name : String
  description : String
  handler : Handler

/-- Lookup in a Python-dict-like association list. -/
def dictLookup (k : String) : List (String × α) → Option α
  | [] => none
  | (k', v) :: rest => if k' = k then some v else dictLookup k rest

/-- Insertion into a Python-dict-like association list: overwriting an
existing key keeps its position, a new key is appended at the end. -/
def dictInsert (k : String) (v : α) : List (String × α) → List (String × α)
  | [] => [(k, v)]
  | (k', v') :: rest =>
      if k' = k then (k, v) :: rest else (k', v') :: dictInsert k v rest

/-- State of an `MCPServer` instance: field for field the attributes set in
`MCPServer.__init__`. -/
structure MCPServer where
  tools : List (String × Tool)
  resources : List (String × Value)
  is_running : Bool
  clients : List String
  host : String
  port : Int

/-- The freshly constructed server (`MCPServer.__init__`). -/
def MCPServer.init : MCPServer :=
  { tools := [], resources := [], is_running := false, clients := [],
    host := "localhost", port := 8080 }

/-- Method `start`: record the address and mark the server running. -/
def MCPServer.start (s : MCPServer) (host : String) (port : Int) : MCPServer :=
  { s with is_running := true, host := host, port := port }

/-- Method `stop`: mark the server stopped and clear the client list. -/
def MCPServer.stop (s : MCPServer) : MCPServer :=
  { s with is_running := false, clients := [] }

/-- Method `register_tool`: store the tool record under its name. -/
def MCPServer.register_tool (s : MCPServer) (name description : String)
    (handler : Handler) : MCPServer :=
  { s with tools := dictInsert name (Tool.mk name description handler) s.tools }

/-- Method `register_resource`: store the content under its URI. -/
def MCPServer.register_resource (s : MCPServer) (uri : String) (content : Value) :
    MCPServer :=
  { s with resources := dictInsert uri content s.resources }

/-- Classify the outcome of running a handler: its exception propagates to the
dispatch caller as a handler-execution failure carrying the original error. -/
def wrapExec : Except PyError Value → Except CallError Value
  | .ok v => .ok v
  | .error e => .error (.execError e)

/-- Method `handle_tool_call`: resolve the name in the registry at call time
(raising the not-found `ValueError` when absent), then invoke the handler,
awaiting it when it is a coroutine function. The method body assigns to no
attribute, so the returned state is the input state. -/
def MCPServer.handle_tool_call (s : MCPServer) (tool_name : String)
    (arguments : Args) : Except CallError Value × MCPServer :=
  match dictLookup tool_name s.tools with
  | none => (.error (.toolNotFound ("Tool " ++ tool_name ++ " not found")), s)
  | some tool =>
      if tool.handler.isAsync then
        (wrapExec (tool.handler.run arguments), s)
      else
        (wrapExec (tool.handler.run arguments), s)

/-- Method `list_tools`: name and description of every registered tool, in
registry order; handlers are not exposed. -/
def MCPServer.list_tools (s : MCPServer) : List (String × String) :=
  s.tools.map (fun p => (p.2.name, p.2.description))

/-- Method `list_resources`: the registered URIs in registry order. -/
def MCPServer.list_resources (s : MCPServer) : List String :=
  s.resources.map (fun p => p.1)

/-- The fixed allow-list `valid_keys` from
`PoliticalDocumentMCPServer.validate_tool_access`. -/
def valid_keys : List String := ["valid-api-key", "admin-key", "service-key"]

/-- Method `PoliticalDocumentMCPServer.validate_tool_access`. The method reads
no instance state (the subclass attributes `config_manager` and
`document_processor` play no part), so it is embedded as a plain function; a
missing or empty key is falsy (`if not api_key`), otherwise membership in the
allow-list decides. -/
def validate_tool_access (tool_name : String) (api_key : Option String) : Bool :=
  match api_key with
  | none => false
  | some k => if k = "" then false else valid_keys.contains k

/-- Method `PoliticalDocumentMCPServer.handle_secure_tool_call`: gate on
`validate_tool_access`, raising `PermissionError` on failure, otherwise
delegate to `handle_tool_call`. -/
def handle_secure_tool_call (s : MCPServer) (tool_name : String)
    (arguments : Args) (api_key : Option String) :
    Except CallError Value × MCPServer :=
  if validate_tool_access tool_name api_key then
    s.handle_tool_call tool_name arguments
  else
    (.error (.permissionDenied "Invalid API key or insufficient permissions"), s)

/-- Python substring test `needle in haystack` on character lists: the needle
is a prefix of some suffix of the haystack (the empty needle always matches). -/
def containsSub (needle : List Char) : List Char → Bool
  | [] => needle.isEmpty
  | c :: t => needle.isPrefixOf (c :: t) || containsSub needle t

/-- Python substring test `needle in haystack` on strings. -/
def strContains (needle haystack : String) : Bool :=
  containsSub needle.toList haystack.toList

/-- Python `text.lower()`, embedded character by character over the list of
characters (all keywords and tool inputs of interest are ASCII). -/
def pyLower (s : String) : String :=
  String.mk (s.toList.map Char.toLower)

/-- The fixed `policy_areas` table of the `analyze_political_content` tool:
each policy area with its keyword list, in source order. -/
def policy_areas : List (String × List String) :=
  [("healthcare", ["healthcare", "health", "medical", "insurance"]),
   ("economy", ["economic", "economy", "financial", "budget", "tax"]),
   ("environment", ["environmental", "climate", "green", "pollution"]),
   ("education", ["education", "school", "university", "student"])]

/-- Per-area entry of the analysis result:
`\x7b"mentions": ..., "relevance": ...\x7d`. -/
structure AreaReport where
  mentions : Nat
  relevance : String
deriving DecidableEq, Repr

/-- The dictionary returned by `analyze_political_content`. -/
structure AnalysisResult where
  analysis : List (String × AreaReport)
  total_policy_mentions : Nat
  primary_topics : List String
deriving DecidableEq, Repr

/-- Tool `analyze_political_content`: lowercase the text, count for each area
how many of its keywords occur in the text (`sum(1 for kw in keywords if kw in
text_lower)` — a count of distinct keywords present, not of occurrences),
classify relevance by the mention thresholds, and report totals and the
high-relevance areas. -/
def analyze_political_content (text : String) : AnalysisResult :=
  let text_lower := pyLower text
  let analysis := policy_areas.map (fun p =>
    let mentions := p.2.countP (fun kw => strContains kw text_lower)
    (p.1, AreaReport.mk mentions
      (if mentions > 2 then "high" else if mentions > 0 then "medium" else "low")))
  { analysis := analysis,
    total_policy_mentions := (analysis.map (fun a => a.2.mentions)).sum,
    primary_topics :=
      (analysis.filter (fun a => a.2.relevance == "high")).map (fun a => a.1) }

/-- Number of keywords from a list that occur in the lowercased text — the
per-area hit count the analysis tool computes. -/
def keyword_hits (keywords : List String) (text : String) : Nat :=
  keywords.countP (fun kw => strContains kw (pyLower text))

/-- Relevance classification by the hand-tuned mention thresholds. -/
def classify_relevance (mentions : Nat) : String :=
  if mentions > 2 then "high" else if mentions > 0 then "medium" else "low"

/-- The dictionary returned by the `query_database` tool on success. -/
structure QueryDBResult where
  query : String
  results : List Value
  count : Nat
  database_type : String

/-- Tool `query_database`: branch on the `database_type` tag, returning the
fixed mock payload for `"sql"` and `"neo4j"` and raising
`ValueError("Unsupported database type: ...")` for anything else. -/
def query_database (query : String) (database_type : String) :
    Except PyError QueryDBResult :=
  if database_type = "sql" then
    .ok { query := query,
          results :=
            [Value.vdict [("id", .int 1), ("title", .str "Document 1"),
                          ("category", .str "political")],
             Value.vdict [("id", .int 2), ("title", .str "Document 2"),
                          ("category", .str "technical")]],
          count := 2,
          database_type := "sql" }
  else if database_type = "neo4j" then
    .ok { query := query,
          results :=
            [Value.vdict [("node", .vdict [("id", .int 1),
                ("type", .str "Document"), ("title", .str "Doc 1")])],
             Value.vdict [("relationship", .vdict [("type", .str "RELATED_TO"),
                ("weight", .float (4 / 5))])]],
          count := 2,
          database_type := "neo4j" }
  else
    .error (.valueError ("Unsupported database type: " ++ database_type))

/-- Reachable registries pair each key with a tool record carrying that same
name, and keys are unique — exactly what `register_tool` maintains. -/
def MCPServer.WellFormedTools (s : MCPServer) : Prop :=
  (s.tools.map Prod.fst).Nodup ∧ ∀ p ∈ s.tools, (Prod.snd p).name = Prod.fst p

lemma handle_tool_call_of_absent (s : MCPServer) (n : String) (args : Args)
    (h : dictLookup n s.tools = none) :
    s.handle_tool_call n args =
      (.error (.toolNotFound ("Tool " ++ n ++ " not found")), s) := by
  unfold MCPServer.handle_tool_call
  rw [h]

lemma handle_tool_call_of_found (s : MCPServer) (n : String) (args : Args)
    (t : Tool) (h : dictLookup n s.tools = some t) :
    s.handle_tool_call n args = (wrapExec (t.handler.run args), s) := by
  cases hA : t.handler.isAsync <;> simp [MCPServer.handle_tool_call, h, hA]

lemma dictLookup_dictInsert_self (k : String) (v : α) (l : List (String × α)) :
    dictLookup k (dictInsert k v l) = some v := by
  induction l with
  | nil => simp [dictInsert, dictLookup]
  | cons p rest ih =>
      by_cases hk : p.1 = k
      · simp [dictInsert, dictLookup, hk]
      · simp [dictInsert, dictLookup, hk, ih]

lemma dictInsert_dictInsert (k : String) (v w : α) (l : List (String × α)) :
    dictInsert k v (dictInsert k w l) = dictInsert k v l := by
  induction l with
  | nil => simp [dictInsert]
  | cons p rest ih =>
      by_cases hk : p.1 = k
      · simp [dictInsert, hk]
      · simp [dictInsert, hk, ih]

/-- C1: a call to a tool name absent from the registry fails with the
not-found error (it neither succeeds nor consults any handler), for every
arguments mapping, and the server state is untouched. -/
theorem C1_unknown_tool_fails (s : MCPServer) (n : String) (args : Args)
    (habsent : dictLookup n s.tools = none) :
    s.handle_tool_call n args =
      (.error (.toolNotFound ("Tool " ++ n ++ " not found")), s) :=
  handle_tool_call_of_absent s n args habsent

theorem C1_unknown_tool_fails_witness :
    MCPServer.init.handle_tool_call "ghost" [] =
      (.error (.toolNotFound ("Tool " ++ "ghost" ++ " not found")), MCPServer.init) :=
  C1_unknown_tool_fails MCPServer.init "ghost" [] rfl

/-- C2: when the registered handler raises, the caller observes a
handler-execution failure wrapping the original exception, and the registry
(tools and resources) is exactly as before the call. -/
theorem C2_handler_failure_wrapped (s : MCPServer) (n : String) (t : Tool)
    (args : Args) (e : PyError)
    (hfound : dictLookup n s.tools = some t)
    (hraises : t.handler.run args = .error e) :
    s.handle_tool_call n args = (.error (.execError e), s) ∧
    (s.handle_tool_call n args).2.tools = s.tools ∧
    (s.handle_tool_call n args).2.resources = s.resources := by
  have h := handle_tool_call_of_found s n args t hfound
  rw [hraises] at h
  exact ⟨h, by rw [h], by rw [h]⟩

/-- A synchronous handler that always raises, for exercising the dispatch
error path. -/
def boom_handler : Handler :=
  { isAsync := false, run := fun _ => .error (.runtimeError "boom") }

theorem C2_handler_failure_wrapped_witness :
    (MCPServer.init.register_tool "t" "d" boom_handler).handle_tool_call "t" [] =
      (.error (.execError (.runtimeError "boom")),
        MCPServer.init.register_tool "t" "d" boom_handler) ∧
    ((MCPServer.init.register_tool "t" "d" boom_handler).handle_tool_call "t" []).2.tools =
      (MCPServer.init.register_tool "t" "d" boom_handler).tools ∧
    ((MCPServer.init.register_tool "t" "d" boom_handler).handle_tool_call "t" []).2.resources =
      (MCPServer.init.register_tool "t" "d" boom_handler).resources :=
  C2_handler_failure_wrapped (MCPServer.init.register_tool "t" "d" boom_handler)
    "t" (Tool.mk "t" "d" boom_handler) [] (.runtimeError "boom") rfl rfl

/-- C8: `stop` sets `is_running` to false and empties the client list, and
leaves the tools map, the resources map, the host and the port unchanged. -/
theorem C8_stop_frame (s : MCPServer) :
    s.stop.is_running = false ∧ s.stop.clients = [] ∧
    s.stop.tools = s.tools ∧ s.stop.resources = s.resources ∧
    s.stop.host = s.host ∧ s.stop.port = s.port :=
  ⟨rfl, rfl, rfl, rfl, rfl, rfl⟩

/-- C9: starting then stopping leaves the server not running; a subsequent
start on a new address reports exactly that address with no leakage of the
prior one; and a second `start` simply overwrites the stored address (it is
idempotent and total, so it cannot error). -/
theorem C9_start_stop_restart (s : MCPServer) (hostA hostB : String)
    (portA portB : Int) :
    ((s.start "localhost" 8080).stop).is_running = false ∧
    (((s.start "localhost" 8080).stop).start "host2" 9090).is_running = true ∧
    (((s.start "localhost" 8080).stop).start "host2" 9090).host = "host2" ∧
    (((s.start "localhost" 8080).stop).start "host2" 9090).port = 9090 ∧
    (s.start hostA portA).start hostB portB = s.start hostB portB :=
  ⟨rfl, rfl, rfl, rfl, rfl⟩

/-- C3: a missing credential, the empty string, or any string outside the
fixed allow-list makes `validate_tool_access` return false (it does not
raise), and the secure entry then fails with the permission error leaving the
state untouched (so no handler result is ever consulted); a credential in the
allow-list makes `validate_tool_access` return true and the secure entry
behave exactly as the plain dispatch. -/
theorem C3_secure_gate (s : MCPServer) (n : String) (args : Args)
    (c : Option String) :
    ((∀ k, c = some k → k ∉ valid_keys) →
      validate_tool_access n c = false ∧
      handle_secure_tool_call s n args c =
        (.error (.permissionDenied "Invalid API key or insufficient permissions"),
          s)) ∧
    (∀ k, c = some k → k ∈ valid_keys →
      validate_tool_access n c = true ∧
      handle_secure_tool_call s n args c = s.handle_tool_call n args) := by
  constructor
  · intro hbad
    have hv : validate_tool_access n c = false := by
      cases c with
      | none => rfl
      | some k =>
          have hk := hbad k rfl
          by_cases he : k = ""
          · simp [validate_tool_access, he]
          · simp [validate_tool_access, he, List.contains, hk]
    exact ⟨hv, by simp [handle_secure_tool_call, hv]⟩
  · intro k hc hk
    have he : k ≠ "" := by
      intro h
      rw [h] at hk
      simp [valid_keys] at hk
    have hv : validate_tool_access n c = true := by
      subst hc
      simp [validate_tool_access, he, List.contains, hk]
    exact ⟨hv, by simp [handle_secure_tool_call, hv]⟩

theorem C3_secure_gate_witness :
    (validate_tool_access "analyze_political_content" (some "bad-key") = false ∧
      handle_secure_tool_call MCPServer.init "analyze_political_content" []
          (some "bad-key") =
        (.error (.permissionDenied "Invalid API key or insufficient permissions"),
          MCPServer.init)) ∧
    (validate_tool_access "analyze_political_content" (some "admin-key") = true ∧
      handle_secure_tool_call MCPServer.init "analyze_political_content" []
          (some "admin-key") =
        MCPServer.init.handle_tool_call "analyze_political_content" []) :=
  ⟨(C3_secure_gate MCPServer.init "analyze_political_content" [] (some "bad-key")).1
      (by intro k hk; cases hk; simp [valid_keys]),
   (C3_secure_gate MCPServer.init "analyze_political_content" [] (some "admin-key")).2
      "admin-key" rfl (by simp [valid_keys])⟩

/-- C10: the access decision never looks at the tool name — any two names
agree for every credential — and an allow-listed credential makes the secure
entry behave as the plain dispatch on every name whatsoever, so an
unregistered name then fails with the not-found error rather than a
permission error: no per-tool permission exists. -/
theorem C10_access_ignores_tool_name (s : MCPServer) (args : Args)
    (c : Option String) (n1 n2 : String) :
    validate_tool_access n1 c = validate_tool_access n2 c ∧
    (∀ k n, c = some k → k ∈ valid_keys →
      handle_secure_tool_call s n args c = s.handle_tool_call n args ∧
      (dictLookup n s.tools = none →
        handle_secure_tool_call s n args c =
          (.error (.toolNotFound ("Tool " ++ n ++ " not found")), s))) := by
  refine ⟨rfl, ?_⟩
  intro k n hc hk
  have he : k ≠ "" := by
    intro h
    rw [h] at hk
    simp [valid_keys] at hk
  have hv : validate_tool_access n c = true := by
    subst hc
    simp [validate_tool_access, he, List.contains, hk]
  have hd : handle_secure_tool_call s n args c = s.handle_tool_call n args := by
    simp [handle_secure_tool_call, hv]
  refine ⟨hd, fun habs => ?_⟩
  rw [hd]
  exact handle_tool_call_of_absent s n args habs

theorem C10_access_ignores_tool_name_witness :
    validate_tool_access "index_documents" (some "service-key") =
      validate_tool_access "ghost" (some "service-key") ∧
    (handle_secure_tool_call MCPServer.init "ghost" [] (some "service-key") =
        MCPServer.init.handle_tool_call "ghost" [] ∧
      handle_secure_tool_call MCPServer.init "ghost" [] (some "service-key") =
        (.error (.toolNotFound ("Tool " ++ "ghost" ++ " not found")),
          MCPServer.init)) :=
  ⟨(C10_access_ignores_tool_name MCPServer.init [] (some "service-key")
      "index_documents" "ghost").1,
   ((C10_access_ignores_tool_name MCPServer.init [] (some "service-key")
        "index_documents" "ghost").2 "service-key" "ghost" rfl
      (by simp [valid_keys])).1,
   ((C10_access_ignores_tool_name MCPServer.init [] (some "service-key")
        "index_documents" "ghost").2 "service-key" "ghost" rfl
      (by simp [valid_keys])).2 rfl⟩

lemma listing_filter_nil_of_not_mem (k : String) (l : List (String × Tool))
    (hnames : ∀ p ∈ l, (Prod.snd p).name = Prod.fst p)
    (hk : k ∉ l.map Prod.fst) :
    (l.map (fun p => (p.2.name, p.2.description))).filter
        (fun q => q.1 == k) = [] := by
  induction l with
  | nil => rfl
  | cons p rest ih =>
      have hp : p.2.name = p.1 := hnames p (by simp)
      have hk1 : p.1 ≠ k := by
        intro h
        exact hk (by simp [h])
      have hk2 : k ∉ rest.map Prod.fst := fun h => hk (by simp [h])
      have hrest : ∀ q ∈ rest, (Prod.snd q).name = Prod.fst q :=
        fun q hq => hnames q (by simp [hq])
      have hb : (p.1 == k) = false := by simp [hk1]
      simp [List.filter, hp, hb, ih hrest hk2]

lemma listing_filter_dictInsert (k : String) (t : Tool)
    (l : List (String × Tool)) (ht : t.name = k)
    (hnodup : (l.map Prod.fst).Nodup)
    (hnames : ∀ p ∈ l, (Prod.snd p).name = Prod.fst p) :
    ((dictInsert k t l).map (fun p => (p.2.name, p.2.description))).filter
        (fun q => q.1 == k) = [(k, t.description)] := by
  induction l with
  | nil => simp [dictInsert, List.filter, ht]
  | cons p rest ih =>
      have hp : p.2.name = p.1 := hnames p (by simp)
      have hnodup1 : p.1 ∉ rest.map Prod.fst := by
        simp only [List.map_cons, List.nodup_cons] at hnodup
        exact hnodup.1
      have hnodup2 : (rest.map Prod.fst).Nodup := by
        simp only [List.map_cons, List.nodup_cons] at hnodup
        exact hnodup.2
      have hrest : ∀ q ∈ rest, (Prod.snd q).name = Prod.fst q :=
        fun q hq => hnames q (by simp [hq])
      by_cases hk : p.1 = k
      · subst hk
        simp only [dictInsert, if_pos rfl, List.map_cons, List.filter, ht]
        simp [listing_filter_nil_of_not_mem p.1 rest hrest hnodup1]
      · simp only [dictInsert, if_neg hk, List.map_cons, List.filter, hp]
        simp only [show (p.1 == k) = false from by simp [hk]]
        exact ih hnodup2 hrest

/-- C4: registering twice under the same name overwrites silently — the
listing afterwards has exactly one entry for that name, carrying the second
description, and dispatch runs the second handler (the result is a function
of the second handler alone, the first having been dropped). -/
theorem C4_reregister_overwrites (s : MCPServer) (d1 d2 : String)
    (h1 h2 : Handler) (args : Args) (hwf : s.WellFormedTools) :
    (((s.register_tool "x" d1 h1).register_tool "x" d2 h2).list_tools.filter
        (fun q => q.1 == "x") = [("x", d2)]) ∧
    ((s.register_tool "x" d1 h1).register_tool "x" d2 h2).handle_tool_call
        "x" args =
      (wrapExec (h2.run args),
        (s.register_tool "x" d1 h1).register_tool "x" d2 h2) := by
  have htools :
      ((s.register_tool "x" d1 h1).register_tool "x" d2 h2).tools =
        dictInsert "x" (Tool.mk "x" d2 h2) s.tools := by
    simp [MCPServer.register_tool, dictInsert_dictInsert]
  constructor
  · show (((s.register_tool "x" d1 h1).register_tool "x" d2 h2).tools.map
        (fun p => (p.2.name, p.2.description))).filter
          (fun q => q.1 == "x") = [("x", d2)]
    rw [htools]
    exact listing_filter_dictInsert "x" (Tool.mk "x" d2 h2) s.tools rfl
      hwf.1 hwf.2
  · have hlook :
        dictLookup "x"
            ((s.register_tool "x" d1 h1).register_tool "x" d2 h2).tools =
          some (Tool.mk "x" d2 h2) := by
      rw [htools]
      exact dictLookup_dictInsert_self "x" (Tool.mk "x" d2 h2) s.tools
    exact handle_tool_call_of_found _ "x" args (Tool.mk "x" d2 h2) hlook

/-- A synchronous handler returning a fixed string, used to exercise
re-registration. -/
def first_handler : Handler :=
  { isAsync := false, run := fun _ => .ok (.str "first") }

/-- An asynchronous handler returning a fixed string, used to exercise
re-registration. -/
def second_handler : Handler :=
  { isAsync := true, run := fun _ => .ok (.str "second") }

theorem C4_reregister_overwrites_witness :
    (((MCPServer.init.register_tool "x" "d1" first_handler).register_tool
          "x" "d2" second_handler).list_tools.filter
        (fun q => q.1 == "x") = [("x", "d2")]) ∧
    ((MCPServer.init.register_tool "x" "d1" first_handler).register_tool
        "x" "d2" second_handler).handle_tool_call "x" [] =
      (wrapExec (second_handler.run []),
        (MCPServer.init.register_tool "x" "d1" first_handler).register_tool
          "x" "d2" second_handler) :=
  C4_reregister_overwrites MCPServer.init "d1" "d2" first_handler
    second_handler [] ⟨by simp [MCPServer.init], by simp [MCPServer.init]⟩

/-- C7: the mock database tool answers any query with the fixed two-row
payload tagged with the requested type for `"sql"` and `"neo4j"`, and raises
the unsupported-type `ValueError` for every other type tag. -/
theorem C7_query_database (q dt : String) :
    (query_database q "sql").map QueryDBResult.count = .ok 2 ∧
    (query_database q "sql").map QueryDBResult.database_type = .ok "sql" ∧
    (query_database q "neo4j").map QueryDBResult.count = .ok 2 ∧
    (query_database q "neo4j").map QueryDBResult.database_type = .ok "neo4j" ∧
    (dt ≠ "sql" → dt ≠ "neo4j" →
      query_database q dt =
        .error (.valueError ("Unsupported database type: " ++ dt))) := by
  refine ⟨rfl, rfl, rfl, rfl, fun h1 h2 => ?_⟩
  simp [query_database, h1, h2]

theorem C7_query_database_witness :
    query_database "SELECT 1" "mongo" =
      .error (.valueError ("Unsupported database type: " ++ "mongo")) :=
  ((((C7_query_database "SELECT 1" "mongo").2).2).2).2
    (by decide) (by decide)

/-- C6: for every input text the analysis tool reports, for each of the four
policy areas, exactly the number of its keywords found in the lowercased text
together with the threshold classification of that count (more than two hits
is high, more than zero is medium, otherwise low); the reported total is the
sum of the per-area counts and the primary topics are exactly the areas
classified high. -/
theorem C6_analysis_classification (text : String) :
    (∀ p ∈ policy_areas,
      dictLookup p.1 (analyze_political_content text).analysis =
        some (AreaReport.mk (keyword_hits p.2 text)
          (classify_relevance (keyword_hits p.2 text)))) ∧
    (analyze_political_content text).total_policy_mentions =
      ((analyze_political_content text).analysis.map
        (fun a => a.2.mentions)).sum ∧
    (analyze_political_content text).primary_topics =
      ((analyze_political_content text).analysis.filter
        (fun a => a.2.relevance == "high")).map (fun a => a.1) := by
  refine ⟨?_, rfl, rfl⟩
  intro p hp
  simp only [policy_areas, List.mem_cons, List.not_mem_nil, or_false] at hp
  rcases hp with rfl | rfl | rfl | rfl <;> rfl

theorem C6_analysis_classification_witness :
    dictLookup "economy" (analyze_political_content "tax and budget").analysis =
      some (AreaReport.mk 2 "medium") := by
  have h := (C6_analysis_classification "tax and budget").1
    ("economy", ["economic", "economy", "financial", "budget", "tax"])
    (by simp [policy_areas])
  exact h.trans (by decide)

/-- Split a character list into space-separated words (accumulator holds the
current word reversed). -/
def splitWordsAux : List Char → List Char → List (List Char)
  | cur, [] => [cur.reverse]
  | cur, c :: rest =>
      if c = ' ' then cur.reverse :: splitWordsAux [] rest
      else splitWordsAux (c :: cur) rest

/-- Number of times `w` occurs as a space-separated word of `text` — this
formalizes the scenario precondition of containing a given word a given
number of times. -/
def wordOccurrences (w text : String) : Nat :=
  ((splitWordsAux [] text.toList).filter (fun t => t == w.toList)).length

/-- Every keyword of every policy area of the analysis tool. -/
def all_policy_keywords : List String :=
  (policy_areas.map Prod.snd).flatten

/-- C5 is refuted on the text made of the word "healthcare" three times: it
satisfies the scenario precondition (the word "healthcare" occurs exactly 3
times and no other policy keyword occurs as a word), yet the tool reports
mentions = 2 rather than 3, relevance "medium" rather than "high", and an
empty primary-topics list rather than one containing "healthcare". The
mention count is a count of the area's keywords present as substrings — both
"healthcare" and "health" hit, "medical" and "insurance" do not — never a
count of occurrences of a word. -/
theorem C5_counterexample :
    wordOccurrences "healthcare" "healthcare healthcare healthcare" = 3 ∧
    (∀ kw ∈ all_policy_keywords, kw ≠ "healthcare" →
      wordOccurrences kw "healthcare healthcare healthcare" = 0) ∧
    dictLookup "healthcare"
        (analyze_political_content "healthcare healthcare healthcare").analysis =
      some (AreaReport.mk 2 "medium") ∧
    (analyze_political_content "healthcare healthcare healthcare").primary_topics
      = [] := by
  decide

lemma containsSub_of_isPrefixOf (n n' h : List Char)
    (hpre : n'.isPrefixOf n = true) (hc : containsSub n h = true) :
    containsSub n' h = true := by
  induction h with
  | nil =>
      simp only [containsSub, List.isEmpty_iff] at hc
      subst hc
      have : n' = [] := List.prefix_nil.mp (List.isPrefixOf_iff_prefix.mp hpre)
      simp [containsSub, this]
  | cons c t ih =>
      simp only [containsSub, Bool.or_eq_true] at hc ⊢
      rcases hc with hc | hc
      · exact Or.inl (List.isPrefixOf_iff_prefix.mpr
          ((List.isPrefixOf_iff_prefix.mp hpre).trans
            (List.isPrefixOf_iff_prefix.mp hc)))
      · exact Or.inr (ih hc)

lemma strContains_health_of_healthcare (t : String)
    (h : strContains "healthcare" t = true) : strContains "health" t = true :=
  containsSub_of_isPrefixOf "healthcare".toList "health".toList t.toList
    (by decide) h

/-- The policy keywords other than "healthcare" and "health" (any text
containing "healthcare" automatically contains "health"). -/
def other_policy_keywords : List String :=
  ["medical", "insurance", "economic", "economy", "financial", "budget",
   "tax", "environmental", "climate", "green", "pollution", "education",
   "school", "university", "student"]

/-- C5 amended: for every input text whose lowercased form contains
"healthcare" as a substring (in particular one containing the word
"healthcare" 3 times) and contains no policy keyword other than "healthcare"
and "health" as a substring, the tool reports for the healthcare area
mentions = 2 with relevance "medium" ("healthcare" and "health" are the two
keyword hits; occurrences beyond the first change nothing), "healthcare" is
not in the primary topics (which are empty), and every other area has
mentions = 0 with relevance "low". -/
theorem C5_amended_healthcare_text (text : String)
    (hhc : strContains "healthcare" (pyLower text) = true)
    (hothers : ∀ kw ∈ other_policy_keywords,
      strContains kw (pyLower text) = false) :
    dictLookup "healthcare" (analyze_political_content text).analysis =
      some (AreaReport.mk 2 "medium") ∧
    dictLookup "economy" (analyze_political_content text).analysis =
      some (AreaReport.mk 0 "low") ∧
    dictLookup "environment" (analyze_political_content text).analysis =
      some (AreaReport.mk 0 "low") ∧
    dictLookup "education" (analyze_political_content text).analysis =
      some (AreaReport.mk 0 "low") ∧
    (analyze_political_content text).total_policy_mentions = 2 ∧
    (analyze_political_content text).primary_topics = [] := by
  have hh : strContains "health" (pyLower text) = true :=
    strContains_health_of_healthcare _ hhc
  have k01 : strContains "medical" (pyLower text) = false :=
    hothers _ (by simp [other_policy_keywords])
  have k02 : strContains "insurance" (pyLower text) = false :=
    hothers _ (by simp [other_policy_keywords])
  have k03 : strContains "economic" (pyLower text) = false :=
    hothers _ (by simp [other_policy_keywords])
  have k04 : strContains "economy" (pyLower text) = false :=
    hothers _ (by simp [other_policy_keywords])
  have k05 : strContains "financial" (pyLower text) = false :=
    hothers _ (by simp [other_policy_keywords])
  have k06 : strContains "budget" (pyLower text) = false :=
    hothers _ (by simp [other_policy_keywords])
  have k07 : strContains "tax" (pyLower text) = false :=
    hothers _ (by simp [other_policy_keywords])
  have k08 : strContains "environmental" (pyLower text) = false :=
    hothers _ (by simp [other_policy_keywords])
  have k09 : strContains "climate" (pyLower text) = false :=
    hothers _ (by simp [other_policy_keywords])
  have k10 : strContains "green" (pyLower text) = false :=
    hothers _ (by simp [other_policy_keywords])
  have k11 : strContains "pollution" (pyLower text) = false :=
    hothers _ (by simp [other_policy_keywords])
  have k12 : strContains "education" (pyLower text) = false :=
    hothers _ (by simp [other_policy_keywords])
  have k13 : strContains "school" (pyLower text) = false :=
    hothers _ (by simp [other_policy_keywords])
  have k14 : strContains "university" (pyLower text) = false :=
    hothers _ (by simp [other_policy_keywords])
  have k15 : strContains "student" (pyLower text) = false :=
    hothers _ (by simp [other_policy_keywords])
  simp [analyze_political_content, policy_areas, dictLookup, List.countP_cons,
    hhc, hh, k01, k02, k03, k04, k05, k06, k07, k08, k09, k10, k11, k12, k13,
    k14, k15]

theorem C5_amended_healthcare_text_witness :
    dictLookup "healthcare"
        (analyze_political_content "healthcare healthcare healthcare").analysis
      = some (AreaReport.mk 2 "medium") ∧
    dictLookup "economy"
        (analyze_political_content "healthcare healthcare healthcare").analysis
      = some (AreaReport.mk 0 "low") ∧
    dictLookup "environment"
        (analyze_political_content "healthcare healthcare healthcare").analysis
      = some (AreaReport.mk 0 "low") ∧
    dictLookup "education"
        (analyze_political_content "healthcare healthcare healthcare").analysis
      = some (AreaReport.mk 0 "low") ∧
    (analyze_political_content
        "healthcare healthcare healthcare").total_policy_mentions = 2 ∧
    (analyze_political_content
        "healthcare healthcare healthcare").primary_topics = [] :=
  C5_amended_healthcare_text "healthcare healthcare healthcare"
    (by decide) (by decide)
